import Mathlib

/-
  Verification development for the Class-Visualisation analysis core
  (backend/analyzer.py and backend/main.py).

  The Python code is shallowly embedded:
  * Python dicts (insertion-ordered, assignment to an existing key keeps
    its position) are association lists `List (K × V)` manipulated through
    `pyGet` / `pySet` / `pyModify`.
  * Python sets whose only observed operations are `add`, membership,
    iteration and `sorted(...)` are duplicate-free `List String`s in
    insertion order (`setAdd`), sorted on demand (`pySorted`).
  * The `ast` module is modelled by the inductive types `PyExpr` / `PyStmt`
    covering the node kinds the analyzer inspects (Name/Attribute/Call plus
    a `constant` leaf for other expressions; ClassDef/FunctionDef/Assign/
    Import/ImportFrom/Expr/Pass statements).  `ast.NodeVisitor` dispatch is
    the mutual recursion `visitStmt` / `visitExpr`; `generic_visit` is the
    recursion into child nodes in `_fields` order (for defs: body, then
    decorator_list; argument default expressions, base classes and
    annotations are not modelled, none of the analyzed behaviour reads
    them).  Async defs (`visit_AsyncFunctionDef` merely delegates to
    `visit_FunctionDef`) are not given a separate node kind.
  * File-system paths are lists of components (`Path`); parsing is the
    external syntax provider, so a file enters the pipeline as
    `Path × Option (List PyStmt)` with `none` for a parse failure
    (`analyze_file` turns a failure into `None`, i.e. `none`).
  * Exceptions raised by `main` before analysis are an `Except` value.
-/

set_option maxRecDepth 10000

/-! ## Insertion-ordered dictionaries (Python `dict` semantics) -/

def pyGet {K V : Type} [DecidableEq K] : List (K × V) → K → Option V
  | [], _ => none
  | p :: rest, k => if p.1 = k then some p.2 else pyGet rest k

def pyHasKey {K V : Type} [DecidableEq K] (d : List (K × V)) (k : K) : Bool :=
  (pyGet d k).isSome

/-- `d[k] = v`: update in place if the key exists (keeping its position),
otherwise append at the end, exactly as a Python dict. -/
def pySet {K V : Type} [DecidableEq K] (d : List (K × V)) (k : K) (v : V) :
    List (K × V) :=
  if pyHasKey d k then d.map (fun p => if p.1 = k then (k, v) else p)
  else d ++ [(k, v)]

/-- In-place mutation of the value stored under `k` (no-op when absent;
the analyzer only mutates keys it has inserted). -/
def pyModify {K V : Type} [DecidableEq K] (d : List (K × V)) (k : K)
    (f : V → V) : List (K × V) :=
  d.map (fun p => if p.1 = k then (p.1, f p.2) else p)

/-- Python `set.add` on an insertion-ordered duplicate-free list. -/
def setAdd (s : List String) (x : String) : List String :=
  if x ∈ s then s else s ++ [x]

/-- `defaultdict(set)` update `d[k].add(v)`. -/
def ucmAdd (d : List (String × List String)) (k v : String) :
    List (String × List String) :=
  pySet d k (setAdd ((pyGet d k).getD []) v)

/-- `defaultdict(list)` update `d[k].append(v)`. -/
def dictAppend {V : Type} (d : List (String × List V)) (k : String) (v : V) :
    List (String × List V) :=
  pySet d k (((pyGet d k).getD []) ++ [v])

/-! ## String helpers (kernel-reducible stand-ins for `str` methods) -/

/-- Python `str.replace` for a nonempty pattern: replace non-overlapping
occurrences left to right (an empty pattern is returned unchanged here;
the analyzer only uses the patterns `os.sep` and `".py"`).  Structural
recursion on a fuel bound (every step consumes at least one character,
so `l.length` fuel is always enough). -/
def pyReplaceFuel (p r : List Char) : Nat → List Char → List Char
  | 0, l => l
  | _ + 1, [] => []
  | fuel + 1, c :: cs =>
    if p.isPrefixOf (c :: cs) && !p.isEmpty then
      r ++ pyReplaceFuel p r fuel (cs.drop (p.length - 1))
    else
      c :: pyReplaceFuel p r fuel cs

def pyReplaceList (p r l : List Char) : List Char :=
  pyReplaceFuel p r l.length l

def pyReplace (s p r : String) : String :=
  ⟨pyReplaceList p.data r.data s.data⟩

def strEndsWith (s p : String) : Bool :=
  p.data.isSuffixOf s.data

def strToLower (s : String) : String :=
  ⟨s.data.map Char.toLower⟩

/-- `module.rsplit('.', 1)[0]`: everything before the last dot
(empty when there is no dot; callers guard on `'.' in module`). -/
def rsplitDotHead (s : String) : String :=
  ⟨(((s.data.reverse.dropWhile (fun c => c ≠ '.')).drop 1)).reverse⟩

/-- `sep.join(parts)`. -/
def joinSep (sep : String) : List String → String
  | [] => ""
  | [x] => x
  | x :: y :: rest => x ++ sep ++ joinSep sep (y :: rest)

/-- Python `<` on strings: lexicographic comparison by code point. -/
def strLtB : List Char → List Char → Bool
  | [], [] => false
  | [], _ :: _ => true
  | _ :: _, [] => false
  | a :: as, b :: bs => if a = b then strLtB as bs else decide (a.toNat < b.toNat)

def strLeB (a b : String) : Bool :=
  strLtB a.data b.data || a = b

/-- Stable insertion keeping ascending code-point order. -/
def insertSorted (x : String) : List String → List String
  | [] => [x]
  | y :: ys => if strLeB x y then x :: y :: ys else y :: insertSorted x ys

/-- Python `sorted(...)` on a set of strings. -/
def pySorted (l : List String) : List String :=
  l.foldr insertSorted []

/-! ## The Python AST fragment visited by `CodeAnalyzer` -/

/-- Expression nodes (`isLoad` is `isinstance(node.ctx, ast.Load)`). -/
inductive PyExpr where
  | name (id : String) (isLoad : Bool)
  | attribute (value : PyExpr) (attr : String) (isLoad : Bool)
  | call (func : PyExpr) (args : List PyExpr)
  | constant
  deriving Repr

/-- Statement nodes.  `importStmt`/`importFrom` carry `(name, asname)`
pairs; `importFrom`'s module is `none` for a relative `from . import`. -/
inductive PyStmt where
  | classDef (name : String) (lineno endLineno : Nat)
      (body : List PyStmt) (decorators : List PyExpr)
  | functionDef (name : String) (args : List String) (lineno endLineno : Nat)
      (body : List PyStmt) (decorators : List PyExpr)
  | assign (targets : List PyExpr) (value : PyExpr)
  | importStmt (names : List (String × Option String))
  | importFrom (module : Option String) (names : List (String × Option String))
  | exprStmt (e : PyExpr)
  | passStmt
  deriving Repr

/-! ## analyzer.py: `API_DECORATOR_KEYWORDS` and `_is_api_endpoint` -/

def API_DECORATOR_KEYWORDS : List String :=
  ["route", "router", "get", "post", "put", "patch", "delete",
   "options", "head", "api", "api_view", "endpoint"]

/-- `while isinstance(target, ast.Call): target = target.func`. -/
def unwrapCalls : PyExpr → PyExpr
  | .call f _ => unwrapCalls f
  | e => e

/-- The `names` list collected by `_is_api_endpoint` for one decorator
after the call-unwrapping loop: lower-cased attribute names outside-in,
then the root identifier if the chain ends at a `Name`. -/
def chainNamesLower : PyExpr → List String
  | .attribute v a _ => strToLower a :: chainNamesLower v
  | .name id _ => [strToLower id]
  | _ => []

def decoratorNames (d : PyExpr) : List String :=
  chainNamesLower (unwrapCalls d)

def is_api_endpoint (decorators : List PyExpr) : Bool :=
  decorators.any (fun d =>
    (decoratorNames d).any (fun n => decide (n ∈ API_DECORATOR_KEYWORDS)))

/-! ## analyzer.py: `CodeAnalyzer` state and helper methods -/

inductive DefType where
  | cls
  | func
  deriving DecidableEq, Repr

structure DefInfo where
  type : DefType
  args : List String
  start_line : Nat
  end_line : Nat
  used_names : List String
  used_classes_methods : List (String × List String)
  is_api_endpoint : Bool
  deriving DecidableEq, Repr

inductive AliasKind where
  | module
  | symbol
  deriving DecidableEq, Repr

/-- An entry of `self.aliases`: module aliases store `module`, symbol
aliases store `symbol` and `module` (`symbol` is an `Option` to mirror
the defensive `info.get('symbol', name)` in the source). -/
structure AliasInfo where
  kind : AliasKind
  symbol : Option String
  module : String
  deriving DecidableEq, Repr

structure AState where
  scopes : List String
  definitions : List (String × DefInfo)
  aliases : List (String × AliasInfo)
  instance_attr_types : List ((String × String) × String)
  deriving Repr

def initState : AState :=
  { scopes := [], definitions := [], aliases := [], instance_attr_types := [] }

/-- `CodeAnalyzer._canonical_name`. -/
def canonical_name (st : AState) (name : String) : String :=
  match pyGet st.aliases name with
  | none => name
  | some info =>
    match info.kind with
    | .symbol => info.symbol.getD name
    | .module => name

/-- `CodeAnalyzer._canonical_attr_base`. -/
def canonical_attr_base (st : AState) (name : String) : String :=
  match pyGet st.aliases name with
  | none => name
  | some info =>
    match info.kind with
    | .symbol => info.symbol.getD name
    | .module => info.module

/-- `CodeAnalyzer._get_current_class`: first class scope from the top of
the stack whose name is a `definitions` key. -/
def findClassScope (defs : List (String × DefInfo)) : List String → Option String
  | [] => none
  | s :: rest =>
    match pyGet defs s with
    | some d => if d.type = .cls then some s else findClassScope defs rest
    | none => findClassScope defs rest

def get_current_class (st : AState) : Option String :=
  findClassScope st.definitions st.scopes.reverse

/-- `CodeAnalyzer._extract_class_from_value`. -/
def extract_class_from_value (st : AState) : PyExpr → Option String
  | .call (.name id _) _ => some (canonical_name st id)
  | .call (.attribute _ attr _) _ => some attr
  | .call _ _ => none
  | .name id _ => some (canonical_name st id)
  | _ => none

/-- `self.scopes[-1]`. -/
def topScope (st : AState) : Option String :=
  st.scopes.getLast?

/-- `self.definitions[self.scopes[-1]]['used_names'].add n`. -/
def addUsedNameTop (st : AState) (n : String) : AState :=
  match topScope st with
  | some top =>
    let defs := pyModify st.definitions top
      (fun d => { d with used_names := setAdd d.used_names n })
    { st with definitions := defs }
  | none => st

/-- `self.definitions[self.scopes[-1]]['used_classes_methods'][base].add attr`. -/
def addUcmTop (st : AState) (base attr : String) : AState :=
  match topScope st with
  | some top =>
    let defs := pyModify st.definitions top
      (fun d => { d with used_classes_methods := ucmAdd d.used_classes_methods base attr })
    { st with definitions := defs }
  | none => st

/-- `visit_Assign`'s per-target binding step (the loop body before
`generic_visit`). -/
def assignTargetStep (value : PyExpr) (st : AState) (target : PyExpr) : AState :=
  match target with
  | .attribute (.name tid _) attr _ =>
    if tid = "self" && !st.scopes.isEmpty then
      match extract_class_from_value st value with
      | some assigned_class =>
        match get_current_class st with
        | some current_class =>
          let iat := pySet st.instance_attr_types (current_class, attr) assigned_class
          { st with instance_attr_types := iat }
        | none => st
      | none => st
    else st
  | _ => st

/-- The new definition record created by `visit_ClassDef`. -/
def newClassInfo (lineno endLineno : Nat) : DefInfo :=
  { type := .cls, args := [], start_line := lineno, end_line := endLineno,
    used_names := [], used_classes_methods := [], is_api_endpoint := false }

/-- The new definition record created by `visit_FunctionDef`. -/
def newFuncInfo (args : List String) (lineno endLineno : Nat)
    (decorators : List PyExpr) : DefInfo :=
  { type := .func, args := args, start_line := lineno, end_line := endLineno,
    used_names := [], used_classes_methods := [],
    is_api_endpoint := is_api_endpoint decorators }

/-- `visit_FunctionDef`'s qualified-name choice: `Class.method` when the
innermost open scope is a class, the bare name otherwise. -/
def functionFullName (st : AState) (name : String) : String :=
  match topScope st with
  | some top =>
    match pyGet st.definitions top with
    | some d => if d.type = .cls then top ++ "." ++ name else name
    | none => name
  | none => name

/-- The `self.X`-base pattern test at the top of `visit_Attribute`:
yields the bound class when `value` is `self.X` and `(current class, X)`
is a tracked instance-attribute binding. -/
def selfAttrBoundClass (st : AState) (value : PyExpr) : Option String :=
  match value with
  | .attribute (.name vid _) vattr _ =>
    if vid = "self" then
      match get_current_class st with
      | some cls => pyGet st.instance_attr_types (cls, vattr)
      | none => none
    else none
  | _ => none

mutual

/-- `ast.NodeVisitor.visit` on a statement (dispatch to the overridden
`visit_*` methods of `CodeAnalyzer`, else `generic_visit`). -/
def visitStmt (st : AState) : PyStmt → AState
  | .classDef name lineno endLineno body decorators =>
    let st := { st with definitions := pySet st.definitions name (newClassInfo lineno endLineno) }
    let st := { st with scopes := st.scopes ++ [name] }
    let st := visitStmts st body
    let st := visitExprs st decorators
    { st with scopes := st.scopes.dropLast }
  | .functionDef name args lineno endLineno body decorators =>
    let full_name := functionFullName st name
    let st := { st with definitions := pySet st.definitions full_name (newFuncInfo args lineno endLineno decorators) }
    let st := { st with scopes := st.scopes ++ [full_name] }
    let st := visitStmts st body
    let st := visitExprs st decorators
    { st with scopes := st.scopes.dropLast }
  | .assign targets value =>
    let st := targets.foldl (assignTargetStep value) st
    let st := visitExprs st targets
    visitExpr st value
  | .importStmt names =>
    names.foldl (fun st p =>
      match p.2 with
      | some asname =>
        let al := pySet st.aliases asname { kind := .module, symbol := none, module := p.1 }
        { st with aliases := al }
      | none => st) st
  | .importFrom module names =>
    let moduleName := module.getD ""
    names.foldl (fun st p =>
      if p.1 = "*" then st
      else
        let al := pySet st.aliases (p.2.getD p.1) { kind := .symbol, symbol := some p.1, module := moduleName }
        { st with aliases := al }) st
  | .exprStmt e => visitExpr st e
  | .passStmt => st

def visitStmts (st : AState) : List PyStmt → AState
  | [] => st
  | s :: rest => visitStmts (visitStmt st s) rest

/-- `ast.NodeVisitor.visit` on an expression. -/
def visitExpr (st : AState) : PyExpr → AState
  | .name id isLoad =>
    if isLoad && !st.scopes.isEmpty then
      addUsedNameTop st (canonical_name st id)
    else st
  | .attribute value attr _ =>
    let st :=
      if st.scopes.isEmpty then st
      else
        match selfAttrBoundClass st value with
        | some original_class => addUcmTop st original_class attr
        | none =>
          match value with
          | .name vid _ => addUcmTop st (canonical_attr_base st vid) attr
          | _ => st
    visitExpr st value
  | .call func args =>
    let st := visitExpr st func
    visitExprs st args
  | .constant => st

def visitExprs (st : AState) : List PyExpr → AState
  | [] => st
  | e :: rest => visitExprs (visitExpr st e) rest

end

/-- `CodeAnalyzer().visit(tree)` on a parsed module: the resulting
per-file definition table. -/
def analyzeModule (body : List PyStmt) : List (String × DefInfo) :=
  (visitStmts initState body).definitions

/-- `analyze_file`: the syntax provider's result is the argument; a parse
failure (`SyntaxError` or any other exception, caught and logged) yields
`None` and the file contributes nothing. -/
def analyze_file (parseResult : Option (List PyStmt)) :
    Option (List (String × DefInfo)) :=
  parseResult.map analyzeModule

/-! ## main.py: paths, module maps, symbol index, resolution, output -/

/-- An absolute, normalized path as its components. -/
abbrev FsPath := List String

/-- `is_within(root, candidate)`: `os.path.commonpath([root, candidate])
== root`.  On two absolute normalized paths `commonpath` is the longest
common component prefix (the `ValueError` branch needs a mix of absolute
and relative paths, which `normalize_dir` has already ruled out), so the
test is exactly "root's components are a prefix of candidate's". -/
def is_within (root candidate : FsPath) : Bool :=
  root.isPrefixOf candidate

/-- `os.path.relpath(file_path, root)` for a file below `root`, with
`os.sep` rendered as `/`. -/
def relPathStr (root fp : FsPath) : String :=
  joinSep "/" (fp.drop root.length)

/-- `rel_path.replace(os.sep, '.').replace('.py', '')` — note the second
`replace` removes every occurrence of `.py`, not only a suffix. -/
def moduleOfRel (rel : String) : String :=
  pyReplace (pyReplace rel "/" ".") ".py" ""

def moduleOfFile (scanRoot fp : FsPath) : String :=
  moduleOfRel (relPathStr scanRoot fp)

structure ModuleInfo where
  module : String
  display : String
  deriving DecidableEq, Repr

/-- The `file_module_info` side of the first loop of `main`. -/
def fmiStep (scanRoot : FsPath) (fmi : List (FsPath × ModuleInfo)) (fp : FsPath) :
    List (FsPath × ModuleInfo) :=
  let m := moduleOfFile scanRoot fp
  pySet fmi fp { module := m, display := "from " ++ m }

def buildFmi (scanRoot : FsPath) (pyFiles : List FsPath) : List (FsPath × ModuleInfo) :=
  pyFiles.foldl (fmiStep scanRoot) []

/-- One iteration of the `module_to_file` side of the first loop of
`main`: register the dotted module name, and for a package aggregator
(`module.endswith('__init__')`) also the containing package name. -/
def mtfStep (scanRoot : FsPath) (mtf : List (String × FsPath)) (fp : FsPath) :
    List (String × FsPath) :=
  let module := moduleOfFile scanRoot fp
  let mtf := pySet mtf module fp
  if strEndsWith module "__init__" then
    let package_name := if module.data.contains '.' then rsplitDotHead module else ""
    if package_name ≠ "" then pySet mtf package_name fp else mtf
  else mtf

def module_to_file (scanRoot : FsPath) (pyFiles : List FsPath) : List (String × FsPath) :=
  pyFiles.foldl (mtfStep scanRoot) []

/-- The `files_data` loop: analyze each file, skipping parse failures. -/
def buildFilesData (files : List (FsPath × Option (List PyStmt))) :
    List (FsPath × List (String × DefInfo)) :=
  files.foldl (fun fd p =>
    match analyze_file p.2 with
    | some defs => pySet fd p.1 defs
    | none => fd) []

structure IndexEntry where
  file_path : FsPath
  display : String
  deriving DecidableEq, Repr

def displayOfFmi (fmi : List (FsPath × ModuleInfo)) (fp : FsPath) : String :=
  ((pyGet fmi fp).map (fun i => i.display)).getD ""

/-- The `symbol_to_file` defaultdict: every per-file definition-table key
(in file order, then definition order) appends an occurrence. -/
def stfFileStep (fmi : List (FsPath × ModuleInfo))
    (stf : List (String × List IndexEntry))
    (p : FsPath × List (String × DefInfo)) : List (String × List IndexEntry) :=
  let display := displayOfFmi fmi p.1
  p.2.foldl (fun stf q =>
    dictAppend stf q.1 { file_path := p.1, display := display }) stf

def symbol_to_file (fmi : List (FsPath × ModuleInfo))
    (fd : List (FsPath × List (String × DefInfo))) :
    List (String × List IndexEntry) :=
  fd.foldl (stfFileStep fmi) []

/-- `def_name.split('.', 1)`. -/
def splitFirstDot (s : String) : String × String :=
  match s.data.splitOn '.' with
  | [] => (s, "")
  | c :: rest => (⟨c⟩, joinSep "." (rest.map (fun l => ⟨l⟩)))

/-- A definition after the nesting pass: classes carry a `methods` dict
(`some`), plain functions do not (`none`). -/
structure NodeData where
  info : DefInfo
  methods : Option (List (String × DefInfo))
  deriving DecidableEq, Repr

/-- The restructuring loop of `main`: first collect classes (with an
empty `methods` dict), then attach `Class.method` entries to their class
and keep undotted functions top-level.  (When a dotted name's class key
holds a function record — possible only if a later function definition
overwrote the class — CPython would raise `KeyError`; that unreachable
corner is a no-op here.) -/
def restructure (defs : List (String × DefInfo)) : List (String × NodeData) :=
  let newDefs := defs.foldl (fun nd p =>
    if p.2.type = .cls then pySet nd p.1 { info := p.2, methods := some [] }
    else nd) []
  defs.foldl (fun nd p =>
    if p.2.type = .func && (p.1.data.contains '.') then
      let cm := splitFirstDot p.1
      match pyGet nd cm.1 with
      | some cdata =>
        match cdata.methods with
        | some m => pySet nd cm.1 { cdata with methods := some (pySet m cm.2 p.2) }
        | none => nd
      | none => nd
    else if p.2.type = .func then pySet nd p.1 { info := p.2, methods := none }
    else nd) newDefs

/-- `resolve_symbol` from `main`: prefer the supplied file's in-focus
entry, then the first in-focus occurrence, else `None`. -/
def resolve_symbol (stf : List (String × List IndexEntry)) (focus : List FsPath)
    (name : String) (preferred_file : Option FsPath) : Option IndexEntry :=
  let entries := (pyGet stf name).getD []
  let fromPreferred :=
    match preferred_file with
    | some pf => entries.find? (fun e => decide (e.file_path = pf) && decide (e.file_path ∈ focus))
    | none => none
  match fromPreferred with
  | some e => some e
  | none => entries.find? (fun e => decide (e.file_path ∈ focus))

/-- A value of the emitted `used_functions` map: either a plain module
display string or the grouped `{file, methods}` record. -/
inductive UFEntry where
  | simple (display : String)
  | grouped (file : String) (methods : List String)
  deriving DecidableEq, Repr

/-- The package-aggregator fallback inside `build_used_functions` (the
`module_to_file` branch taken when the grouped emission did not fire). -/
def aggFallback (stf : List (String × List IndexEntry)) (focus : List FsPath)
    (mtf : List (String × FsPath)) (uf : List (String × UFEntry))
    (base : String) (methods : List String) : List (String × UFEntry) :=
  match pyGet mtf base with
  | some module_file =>
    if module_file ∈ focus then
      (pySorted methods).foldl (fun uf method_name =>
        match resolve_symbol stf focus method_name (some module_file) with
        | some t => pySet uf method_name (.simple t.display)
        | none => uf) uf
    else uf
  | none => uf

/-- `build_used_functions`: resolve plain used names, then base→methods
usages (grouped when the base resolves and has methods, else the
aggregator fallback). -/
def build_used_functions (stf : List (String × List IndexEntry))
    (focus : List FsPath) (mtf : List (String × FsPath)) (d : DefInfo) :
    List (String × UFEntry) :=
  let uf := d.used_names.foldl (fun uf name =>
    match resolve_symbol stf focus name none with
    | some t => pySet uf name (.simple t.display)
    | none => uf) []
  d.used_classes_methods.foldl (fun uf p =>
    match resolve_symbol stf focus p.1 none with
    | some t =>
      if !p.2.isEmpty then pySet uf p.1 (.grouped t.display (pySorted p.2))
      else aggFallback stf focus mtf uf p.1 p.2
    | none => aggFallback stf focus mtf uf p.1 p.2) uf

/-- A definition record as emitted (after `build_used_functions` dropped
`used_names`, `used_classes_methods` and `type`). -/
structure FinalDef where
  args : List String
  start_line : Nat
  end_line : Nat
  is_api_endpoint : Bool
  used_functions : List (String × UFEntry)
  deriving DecidableEq, Repr

def finalizeDef (stf : List (String × List IndexEntry)) (focus : List FsPath)
    (mtf : List (String × FsPath)) (d : DefInfo) : FinalDef :=
  { args := d.args, start_line := d.start_line, end_line := d.end_line,
    is_api_endpoint := d.is_api_endpoint,
    used_functions := build_used_functions stf focus mtf d }

structure OutNode where
  base : FinalDef
  methods : Option (List (String × FinalDef))
  deriving DecidableEq, Repr

def finalizeNode (stf : List (String × List IndexEntry)) (focus : List FsPath)
    (mtf : List (String × FsPath)) (n : NodeData) : OutNode :=
  { base := finalizeDef stf focus mtf n.info,
    methods := n.methods.map (fun ms => ms.map (fun q => (q.1, finalizeDef stf focus mtf q.2))) }

structure FileMeta where
  is_router : Bool
  module : String
  deriving DecidableEq, Repr

structure Output where
  files : List (String × List (String × OutNode))
  file_meta : List (String × FileMeta)
  scan_root : FsPath
  focus_root : FsPath
  deriving DecidableEq, Repr

/-- `os.path.basename`. -/
def basename (fp : FsPath) : String :=
  (fp.getLast?).getD ""

/-- The `focus_files` set of `main`: the successfully analyzed files
lying under the focus root. -/
def focusOf (focusRoot : FsPath) (files : List (FsPath × Option (List PyStmt))) :
    List FsPath :=
  ((buildFilesData files).map (fun p => p.1)).filter (fun p => is_within focusRoot p)

/-- The restructure-and-resolve stage: per file, nest methods under
their classes and replace the raw usage fields by `used_functions`. -/
def buildFinalData (stf : List (String × List IndexEntry)) (focusFiles : List FsPath)
    (mtf : List (String × FsPath))
    (filesData : List (FsPath × List (String × DefInfo))) :
    List (FsPath × List (String × OutNode)) :=
  filesData.map (fun p =>
    (p.1, (restructure p.2).map (fun q => (q.1, finalizeNode stf focusFiles mtf q.2))))

/-- The `output_files` loop: only in-focus files, keyed by the path
relative to the scan root's parent. -/
def buildOutFiles (parentDir : FsPath) (focusFiles : List FsPath)
    (finalData : List (FsPath × List (String × OutNode))) :
    List (String × List (String × OutNode)) :=
  finalData.foldl (fun acc p =>
    if p.1 ∈ focusFiles then pySet acc (relPathStr parentDir p.1) p.2 else acc) []

/-- The `output_meta` loop. -/
def buildOutMeta (parentDir : FsPath) (fmi : List (FsPath × ModuleInfo))
    (focusFiles : List FsPath)
    (finalData : List (FsPath × List (String × OutNode))) :
    List (String × FileMeta) :=
  finalData.foldl (fun acc p =>
    if p.1 ∈ focusFiles then
      let meta : FileMeta :=
        { is_router := basename p.1 = "__init__.py",
          module := ((pyGet fmi p.1).map (fun i => i.module)).getD "" }
      pySet acc (relPathStr parentDir p.1) meta
    else acc) []

/-- The whole analysis pipeline of `main` after the configuration checks
(the part between `get_py_files` and `json.dump`). -/
def runPipeline (scanRoot focusRoot : FsPath)
    (files : List (FsPath × Option (List PyStmt))) : Output :=
  let pyFiles := files.map (fun p => p.1)
  let fmi := buildFmi scanRoot pyFiles
  let mtf := module_to_file scanRoot pyFiles
  let filesData := buildFilesData files
  let stf := symbol_to_file fmi filesData
  let focusFiles := focusOf focusRoot files
  let finalData := buildFinalData stf focusFiles mtf filesData
  let parentDir := scanRoot.dropLast
  { files := buildOutFiles parentDir focusFiles finalData,
    file_meta := buildOutMeta parentDir fmi focusFiles finalData,
    scan_root := scanRoot, focus_root := focusRoot }

inductive ConfigError where
  | scanRootMissing
  | focusRootMissing
  | focusNotInScan
  deriving DecidableEq, Repr

def exceptIsOk {e a : Type} : Except e a → Bool
  | .ok _ => true
  | .error _ => false

def exceptOutput {e a : Type} : Except e a → Option a
  | .ok v => some v
  | .error _ => none

/-- `main` after argument normalization: the three configuration checks
(raised exceptions are the `Except.error` cases), then the pipeline.
`existingDirs` abstracts `os.path.isdir`; directory traversal and JSON
serialization are external, so the enumerated files are an argument and
the produced `Output` is the value that would be written. -/
def mainModel (existingDirs : List FsPath) (scanRoot focusRoot : FsPath)
    (files : List (FsPath × Option (List PyStmt))) : Except ConfigError Output :=
  if !(scanRoot ∈ existingDirs) then .error .scanRootMissing
  else if !(focusRoot ∈ existingDirs) then .error .focusRootMissing
  else if !(is_within scanRoot focusRoot) then .error .focusNotInScan
  else .ok (runPipeline scanRoot focusRoot files)

/-! ## Spec-side definitions (for comparison with the embedded code) -/

/-- Modelled from the spec's words for the Symbol Index contract
("a mapping from every defined name … to the ordered list of files that
define something by that name"): the occurrences of `n`, in file order
then definition order. -/
def symbolIndexSpec (fmi : List (FsPath × ModuleInfo))
    (fd : List (FsPath × List (String × DefInfo))) (n : String) :
    List IndexEntry :=
  fd.flatMap (fun p =>
    p.2.filterMap (fun q =>
      if q.1 = n then some { file_path := p.1, display := displayOfFmi fmi p.1 }
      else none))

/-- Modelled from the spec's words for decorator classification: the
names of a decorator's unwrapped chain, without lower-casing ("any
attribute name or the root name, compared case-insensitively"). -/
def chainNamesRaw : PyExpr → List String
  | .attribute v a _ => a :: chainNamesRaw v
  | .name id _ => [id]
  | _ => []

/-- What the aggregator fallback can observe of `module_to_file`: the
mapped file when it exists and lies in the focus set, `none` otherwise. -/
def mtfFocusGet (mtf : List (String × FsPath)) (focus : List FsPath)
    (base : String) : Option FsPath :=
  match pyGet mtf base with
  | some fp => if fp ∈ focus then some fp else none
  | none => none

/-! ## Concrete scan universes used by the claims -/

/-- `A.py`: `class Foo:` with method `bar`. -/
def astA : List PyStmt :=
  [.classDef "Foo" 1 2 [.functionDef "bar" ["self"] 2 2 [.passStmt] []] []]

/-- `B.py`: `from A import Foo` and `def run(): Foo().bar()`. -/
def astB : List PyStmt :=
  [.importFrom (some "A") [("Foo", none)],
   .functionDef "run" [] 2 3
     [.exprStmt (.call (.attribute (.call (.name "Foo" true) []) "bar" true) [])] []]

/-- `B.py` variant where `run`'s body reads `Foo.bar()` (the attribute's
base is the bare name). -/
def astBName : List PyStmt :=
  [.importFrom (some "A") [("Foo", none)],
   .functionDef "run" [] 2 3
     [.exprStmt (.call (.attribute (.name "Foo" true) "bar" true) [])] []]

def outC1 : Output :=
  runPipeline ["root"] ["root"] [(["root", "A.py"], some astA), (["root", "B.py"], some astB)]

def outC1Name : Output :=
  runPipeline ["root"] ["root"] [(["root", "A.py"], some astA), (["root", "B.py"], some astBName)]

/-- `run`'s emitted `used_functions` map in a two-file universe whose
`B.py` is the given module body. -/
def runUsedFunctions (o : Output) : Option (Option (List (String × UFEntry))) :=
  (pyGet o.files "root/B.py").map (fun nodes =>
    (pyGet nodes "run").map (fun n => n.base.used_functions))

/-- `w.py`: `class Widget:` with method `render`. -/
def widgetFiles : List (FsPath × Option (List PyStmt)) :=
  [(["r", "w.py"], some [.classDef "Widget" 1 3 [.functionDef "render" ["self"] 2 3 [.passStmt] []] []])]

def widgetIndex : List (String × List IndexEntry) :=
  symbol_to_file (buildFmi ["r"] (widgetFiles.map (fun p => p.1))) (buildFilesData widgetFiles)

/-- A class whose accessing method `use` is defined (and therefore
visited) before the method `setup` that performs the binding
`self.helper = Tool()`. -/
def gadgetAst : List PyStmt :=
  [.classDef "Gadget" 1 5
    [.functionDef "use" ["self"] 2 3
       [.exprStmt (.call (.attribute (.attribute (.name "self" true) "helper" true) "ping" true) [])] [],
     .functionDef "setup" ["self"] 4 5
       [.assign [.attribute (.name "self" false) "helper" false] (.call (.name "Tool" true) [])] []] []]

/-- Analyzer state in the middle of a class whose binding is already
tracked: used as the witness input for the amended C3 statement. -/
def stC3 : AState :=
  { scopes := ["Gadget", "Gadget.use"],
    definitions :=
      [("Gadget", newClassInfo 1 5),
       ("Gadget.use", newFuncInfo ["self"] 2 3 [])],
    aliases := [],
    instance_attr_types := [(("Gadget", "helper"), "Tool")] }

/-- `pkg.py`: a plain module defining `helper`. -/
def astPkg : List PyStmt := [.functionDef "helper" [] 1 1 [.passStmt] []]

/-- `user.py`: `import pkg` and `def use(): pkg.helper()`. -/
def astUser : List PyStmt :=
  [.importStmt [("pkg", none)],
   .functionDef "use" [] 2 3
     [.exprStmt (.call (.attribute (.name "pkg" true) "helper" true) [])] []]

/-- Scan universe where `pkg/__init__.py` fails to parse and its package
alias `pkg` shadows the module registration of `pkg.py`. -/
def filesC9A : List (FsPath × Option (List PyStmt)) :=
  [(["r", "pkg.py"], some astPkg), (["r", "user.py"], some astUser),
   (["r", "pkg", "__init__.py"], none)]

/-- The same universe without the unparseable file. -/
def filesC9B : List (FsPath × Option (List PyStmt)) :=
  [(["r", "pkg.py"], some astPkg), (["r", "user.py"], some astUser)]

def useUsedFunctions (files : List (FsPath × Option (List PyStmt))) :
    Option (Option (List (String × UFEntry))) :=
  (pyGet (runPipeline ["r"] ["r"] files).files "r/user.py").map (fun ns =>
    (pyGet ns "use").map (fun n => n.base.used_functions))

/-- `mod.py` defines `Thing`; `use.py` has `from mod import Thing as T`
and `def f(): T()`. -/
def astMod : List PyStmt := [.classDef "Thing" 1 2 [.passStmt] []]

def astUse : List PyStmt :=
  [.importFrom (some "mod") [("Thing", some "T")],
   .functionDef "f" [] 2 3 [.exprStmt (.call (.name "T" true) [])] []]

def outC6 : Output :=
  runPipeline ["r"] ["r"] [(["r", "mod.py"], some astMod), (["r", "use.py"], some astUse)]

/-- Two decorated callables: `@app.route('/x')` and `@staticmethod`. -/
def apiAst : List PyStmt :=
  [.functionDef "handler" [] 1 2 [.passStmt]
     [.call (.attribute (.name "app" true) "route" true) [.constant]],
   .functionDef "plain" [] 3 4 [.passStmt] [.name "staticmethod" true]]

/-- `nest.py`: a top-level `inner`, then `outer` containing a nested
`def inner(x)` that overwrites the earlier record. -/
def nestAst : List PyStmt :=
  [.functionDef "inner" [] 1 1 [.passStmt] [],
   .functionDef "outer" [] 2 4 [.functionDef "inner" ["x"] 3 4 [.passStmt] []] []]

def outC10 : Output := runPipeline ["q"] ["q"] [(["q", "nest.py"], some nestAst)]

/-- Witness state with a symbol alias `T -> Thing (from mod)`. -/
def stSym : AState :=
  { scopes := [], definitions := [],
    aliases := [("T", { kind := .symbol, symbol := some "Thing", module := "mod" })],
    instance_attr_types := [] }

/-- Witness state with a module alias `np -> numpy`. -/
def stMod : AState :=
  { scopes := [], definitions := [],
    aliases := [("np", { kind := .module, symbol := none, module := "numpy" })],
    instance_attr_types := [] }

/-- Witness state with no aliases. -/
def stEmptyAlias : AState := initState

/-- Witness entries and focus set for symbol resolution. -/
def entryA : IndexEntry := { file_path := ["r", "a.py"], display := "from a" }

def entryB : IndexEntry := { file_path := ["r", "b.py"], display := "from b" }

def focusW : List FsPath := [["r", "a.py"]]

/-- Witness data for the aggregator fallback. -/
def stfC5 : List (String × List IndexEntry) :=
  [("helper", [{ file_path := ["r", "pkg", "lib.py"], display := "from pkg.lib" }])]

def mtfC5 : List (String × FsPath) := [("pkg", ["r", "pkg", "__init__.py"])]

def focusC5 : List FsPath := [["r", "pkg", "lib.py"], ["r", "pkg", "__init__.py"]]

def dC5 : DefInfo :=
  { type := .func, args := [], start_line := 1, end_line := 1,
    used_names := [], used_classes_methods := [("pkg", ["helper"])],
    is_api_endpoint := false }

/-- Witness state for the nested-function naming rule: the innermost
open scope `outer` is a function. -/
def stC10 : AState :=
  { scopes := ["outer"],
    definitions := [("outer", newFuncInfo [] 1 2 [])],
    aliases := [], instance_attr_types := [] }

/-- Witness instantiation of the parse-failure isolation claim: the
unparseable `lone.py` has a module name colliding with nothing. -/
def c9wFailed : FsPath := ["r", "lone.py"]

def c9wL1 : List (FsPath × Option (List PyStmt)) := [(["r", "a.py"], some astMod)]

def c9wFilesA : List (FsPath × Option (List PyStmt)) := c9wL1 ++ (c9wFailed, none) :: []

def c9wFilesB : List (FsPath × Option (List PyStmt)) := c9wL1 ++ []

/-- The emitted record of the nested `def inner(x)` of `nestAst`. -/
def innerFinal : FinalDef :=
  { args := ["x"], start_line := 3, end_line := 4, is_api_endpoint := false,
    used_functions := [] }

/-- The emitted record of `outer` of `nestAst`. -/
def outerFinal : FinalDef :=
  { args := [], start_line := 2, end_line := 4, is_api_endpoint := false,
    used_functions := [] }

/-- The definition record produced by visiting `self.X.attr` while the
binding `(class, X) -> className` is tracked: `attr` recorded under the
bound class, then the inner `self.X` access recorded under `self`, then
the Load of `self` added to the used names. -/
def c3Updated (d : DefInfo) (className attr X : String) : DefInfo :=
  { d with
    used_classes_methods := ucmAdd (ucmAdd d.used_classes_methods className attr) "self" X,
    used_names := setAdd d.used_names "self" }

/-- Witness definition whose only usage is an unresolvable name. -/
def dC4miss : DefInfo :=
  { type := .func, args := [], start_line := 1, end_line := 1,
    used_names := ["missing"], used_classes_methods := [],
    is_api_endpoint := false }

/-! ## Dictionary and list lemmas -/

theorem pyGet_append {K V : Type} [DecidableEq K] (d e : List (K × V)) (q : K) :
    pyGet (d ++ e) q = match pyGet d q with
      | some v => some v
      | none => pyGet e q := by
  induction d with
  | nil => simp [pyGet]
  | cons p rest ih =>
    by_cases h : p.1 = q <;> simp [pyGet, h, ih]

theorem pyGet_map_update {K V : Type} [DecidableEq K] (d : List (K × V))
    (k : K) (v : V) (q : K) :
    pyGet (d.map (fun p => if p.1 = k then (k, v) else p)) q
      = if q = k then (pyGet d k).map (fun _ => v) else pyGet d q := by
  induction d with
  | nil => simp [pyGet]
  | cons p rest ih =>
    simp only [List.map_cons]
    by_cases hp : p.1 = k
    · by_cases hq : q = k
      · subst hq
        simp [pyGet, hp]
      · have hkq : ¬ (k = q) := fun h => hq h.symm
        have hpq : ¬ (p.1 = q) := fun h => hq (hp ▸ h ▸ rfl)
        simp [pyGet, hp, hq, hkq, hpq, ih]
    · by_cases hq : q = k
      · subst hq
        simp [pyGet, hp, ih]
      · by_cases hpq : p.1 = q
        · simp [pyGet, hp, hq, hpq]
        · simp [pyGet, hp, hq, hpq, ih]

theorem pyGet_pySet {K V : Type} [DecidableEq K] (d : List (K × V))
    (k : K) (v : V) (q : K) :
    pyGet (pySet d k v) q = if q = k then some v else pyGet d q := by
  unfold pySet
  by_cases h : pyHasKey d k
  · rw [if_pos h, pyGet_map_update]
    by_cases hq : q = k
    · subst hq
      unfold pyHasKey at h
      cases hg : pyGet d q with
      | none => rw [hg] at h; simp at h
      | some w => simp [hg]
    · simp [hq]
  · rw [if_neg h, pyGet_append]
    unfold pyHasKey at h
    by_cases hq : q = k
    · subst hq
      cases hg : pyGet d q with
      | none => simp [pyGet]
      | some w => rw [hg] at h; simp at h
    · cases hg : pyGet d q with
      | none =>
        have hkq : ¬ (k = q) := fun hh => hq hh.symm
        simp [pyGet, hkq, hq]
      | some w => simp [hq]

theorem pyGet_pyModify {K V : Type} [DecidableEq K] (d : List (K × V))
    (k : K) (f : V → V) (q : K) :
    pyGet (pyModify d k f) q = if q = k then (pyGet d k).map f else pyGet d q := by
  unfold pyModify
  induction d with
  | nil => simp [pyGet]
  | cons p rest ih =>
    simp only [List.map_cons]
    by_cases hp : p.1 = k
    · by_cases hq : q = k
      · subst hq
        simp [pyGet, hp]
      · have hpq : ¬ (p.1 = q) := fun h => hq (hp ▸ h ▸ rfl)
        have hkq : ¬ (k = q) := fun h => hq h.symm
        simp [pyGet, hp, hq, hpq, hkq, ih]
    · by_cases hq : q = k
      · subst hq
        simp [pyGet, hp, ih]
      · by_cases hpq : p.1 = q
        · simp [pyGet, hp, hq, hpq]
        · simp [pyGet, hp, hq, hpq, ih]

theorem pyGet_ucmAdd (d : List (String × List String)) (k v q : String) :
    pyGet (ucmAdd d k v) q
      = if q = k then some (setAdd ((pyGet d k).getD []) v) else pyGet d q := by
  unfold ucmAdd
  exact pyGet_pySet d k (setAdd ((pyGet d k).getD []) v) q

theorem pyGet_dictAppend {V : Type} (d : List (String × List V)) (k : String) (v : V) (q : String) :
    pyGet (dictAppend d k v) q
      = if q = k then some (((pyGet d k).getD []) ++ [v]) else pyGet d q := by
  unfold dictAppend
  exact pyGet_pySet d k (((pyGet d k).getD []) ++ [v]) q

theorem mem_setAdd (s : List String) (x y : String) :
    y ∈ setAdd s x ↔ y = x ∨ y ∈ s := by
  unfold setAdd
  by_cases h : x ∈ s
  · simp only [if_pos h]
    constructor
    · intro hy
      exact Or.inr hy
    · intro hy
      cases hy with
      | inl he => exact he ▸ h
      | inr hm => exact hm
  · simp [if_neg h, List.mem_append, or_comm]

theorem mem_setAdd_self (s : List String) (x : String) : x ∈ setAdd s x :=
  (mem_setAdd s x x).mpr (Or.inl rfl)

theorem mem_insertSorted (l : List String) (x y : String) :
    y ∈ insertSorted x l ↔ y = x ∨ y ∈ l := by
  induction l with
  | nil => simp [insertSorted]
  | cons z rest ih =>
    unfold insertSorted
    by_cases h : strLeB x z
    · simp [h]
    · simp [h, ih]
      tauto

theorem mem_pySorted (l : List String) (y : String) :
    y ∈ pySorted l ↔ y ∈ l := by
  induction l with
  | nil => simp [pySorted]
  | cons z rest ih =>
    unfold pySorted at ih ⊢
    simp [List.foldr_cons, mem_insertSorted, ih]

theorem mem_of_mem_pySet {K V : Type} [DecidableEq K] (d : List (K × V))
    (k : K) (v : V) (p : K × V) (h : p ∈ pySet d k v) : p ∈ d ∨ p.1 = k := by
  unfold pySet at h
  by_cases hk : pyHasKey d k
  · rw [if_pos hk] at h
    rcases List.mem_map.mp h with ⟨q, hq, he⟩
    by_cases hq1 : q.1 = k
    · rw [if_pos hq1] at he
      right
      rw [← he]
    · rw [if_neg hq1] at he
      left
      exact he ▸ hq
  · rw [if_neg hk] at h
    rcases List.mem_append.mp h with hm | hm
    · exact Or.inl hm
    · right
      rcases List.mem_singleton.mp hm with rfl
      rfl

theorem foldl_ext_mem {α β : Type} (f g : β → α → β) (l : List α)
    (h : ∀ b a, a ∈ l → f b a = g b a) : ∀ b, l.foldl f b = l.foldl g b := by
  induction l with
  | nil => intro b; rfl
  | cons a rest ih =>
    intro b
    simp only [List.foldl_cons]
    rw [h b a (List.mem_cons_self a rest)]
    exact ih (fun b a ha => h b a (List.mem_cons_of_mem _ ha)) (g b a)

/-- The shape of both name-resolution folds in `build_used_functions`:
insert `simple` entries keyed by the resolved names. -/
theorem pyGet_resolveFold (g : String → Option IndexEntry) (l : List String)
    (acc : List (String × UFEntry)) (q : String) :
    pyGet (l.foldl (fun uf name =>
        match g name with
        | some t => pySet uf name (UFEntry.simple t.display)
        | none => uf) acc) q
      = if q ∈ l ∧ (g q).isSome
        then (g q).map (fun t => UFEntry.simple t.display)
        else pyGet acc q := by
  induction l generalizing acc with
  | nil => simp
  | cons m rest ih =>
    simp only [List.foldl_cons]
    cases hm : g m with
    | none =>
      rw [ih]
      by_cases hq : q = m
      · subst hq
        simp [hm]
      · simp [hq]
    | some t =>
      rw [ih]
      by_cases hq : q = m
      · subst hq
        by_cases hql : q ∈ rest
        · simp [hql, hm]
        · simp [hql, hm, pyGet_pySet]
      · simp [hq, pyGet_pySet]

/-- Membership characterization of the inner fold of `symbol_to_file`:
appending the same entry under every definition key. -/
theorem pyGet_stf_inner (defs : List (String × DefInfo)) (e : IndexEntry)
    (acc : List (String × List IndexEntry)) (n : String) :
    pyGet (defs.foldl (fun a q => dictAppend a q.1 e) acc) n
      = if defs.filterMap (fun q => if q.1 = n then some e else none) = []
        then pyGet acc n
        else some ((pyGet acc n).getD []
          ++ defs.filterMap (fun q => if q.1 = n then some e else none)) := by
  induction defs generalizing acc with
  | nil => simp
  | cons q rest ih =>
    simp only [List.foldl_cons]
    rw [ih]
    by_cases hq : q.1 = n
    · have hfm : (q :: rest).filterMap (fun q => if q.1 = n then some e else none)
          = e :: rest.filterMap (fun q => if q.1 = n then some e else none) := by
        simp [List.filterMap_cons, hq]
      rw [hfm, pyGet_dictAppend, if_pos hq.symm]
      by_cases hrest : rest.filterMap (fun q => if q.1 = n then some e else none) = []
      · simp [hrest, hq]
      · simp [hrest, hq, List.append_assoc]
    · have hfm : (q :: rest).filterMap (fun q => if q.1 = n then some e else none)
          = rest.filterMap (fun q => if q.1 = n then some e else none) := by
        simp [List.filterMap_cons, hq]
      rw [hfm, pyGet_dictAppend, if_neg (fun h : n = q.1 => hq h.symm)]

theorem pyGet_stf_fold (fmi : List (FsPath × ModuleInfo))
    (fd : List (FsPath × List (String × DefInfo)))
    (acc : List (String × List IndexEntry)) (n : String) :
    pyGet (fd.foldl (stfFileStep fmi) acc) n
      = if symbolIndexSpec fmi fd n = [] then pyGet acc n
        else some ((pyGet acc n).getD [] ++ symbolIndexSpec fmi fd n) := by
  induction fd generalizing acc with
  | nil => simp [symbolIndexSpec]
  | cons p rest ih =>
    simp only [List.foldl_cons]
    rw [ih]
    have hstep : stfFileStep fmi acc p
        = p.2.foldl (fun a q =>
            dictAppend a q.1 ({ file_path := p.1, display := displayOfFmi fmi p.1 } : IndexEntry)) acc := rfl
    rw [hstep, pyGet_stf_inner]
    have hspec : symbolIndexSpec fmi (p :: rest) n
        = (p.2.filterMap (fun q =>
            if q.1 = n then some ({ file_path := p.1, display := displayOfFmi fmi p.1 } : IndexEntry) else none))
          ++ symbolIndexSpec fmi rest n := by
      simp [symbolIndexSpec]
    rw [hspec]
    by_cases hp : p.2.filterMap (fun q =>
        if q.1 = n then some ({ file_path := p.1, display := displayOfFmi fmi p.1 } : IndexEntry) else none) = []
    · by_cases hr : symbolIndexSpec fmi rest n = []
      · simp [hp, hr]
      · simp [hp, hr]
    · by_cases hr : symbolIndexSpec fmi rest n = []
      · simp [hp, hr]
      · simp [hp, hr, List.append_assoc]

/-- Claim C2's Symbol Index contract, proved for the code: the index
yields, for every name, exactly the occurrence list described by
`symbolIndexSpec` (and no key at all when there is no occurrence). -/
theorem pyGet_symbol_to_file (fmi : List (FsPath × ModuleInfo))
    (fd : List (FsPath × List (String × DefInfo))) (n : String) :
    pyGet (symbol_to_file fmi fd) n
      = if symbolIndexSpec fmi fd n = [] then none
        else some (symbolIndexSpec fmi fd n) := by
  unfold symbol_to_file
  rw [pyGet_stf_fold]
  by_cases h : symbolIndexSpec fmi fd n = []
  · simp [h, pyGet]
  · simp [h, pyGet]

theorem file_of_mem_symbolIndexSpec (fmi : List (FsPath × ModuleInfo))
    (fd : List (FsPath × List (String × DefInfo))) (n : String) (e : IndexEntry)
    (h : e ∈ symbolIndexSpec fmi fd n) : ∃ p ∈ fd, e.file_path = p.1 := by
  unfold symbolIndexSpec at h
  rcases List.mem_flatMap.mp h with ⟨p, hp, he⟩
  rcases List.mem_filterMap.mp he with ⟨q, _, hq⟩
  by_cases hqn : q.1 = n
  · rw [if_pos hqn] at hq
    refine ⟨p, hp, ?_⟩
    cases hq
    rfl
  · rw [if_neg hqn] at hq
    cases hq

theorem mem_buildFilesData (files : List (FsPath × Option (List PyStmt)))
    (p : FsPath × List (String × DefInfo)) (h : p ∈ buildFilesData files) :
    p.1 ∈ files.map Prod.fst := by
  have key : ∀ (l : List (FsPath × Option (List PyStmt)))
      (acc : List (FsPath × List (String × DefInfo))),
      p ∈ l.foldl (fun fd q =>
        match analyze_file q.2 with
        | some defs => pySet fd q.1 defs
        | none => fd) acc →
      p.1 ∈ l.map Prod.fst ∨ p ∈ acc := by
    intro l
    induction l with
    | nil => intro acc hm; exact Or.inr hm
    | cons q rest ih =>
      intro acc hm
      simp only [List.foldl_cons] at hm
      cases hq : analyze_file q.2 with
      | none =>
        rw [hq] at hm
        rcases ih acc hm with hl | hacc
        · exact Or.inl (List.mem_cons_of_mem _ hl)
        · exact Or.inr hacc
      | some defs =>
        rw [hq] at hm
        rcases ih (pySet acc q.1 defs) hm with hl | hacc
        · exact Or.inl (List.mem_cons_of_mem _ hl)
        · rcases mem_of_mem_pySet acc q.1 defs p hacc with hin | hkey
          · exact Or.inr hin
          · exact Or.inl (by simp [hkey])
  rcases key files [] h with hl | hacc
  · exact hl
  · cases hacc

theorem chainNamesLower_eq (e : PyExpr) :
    chainNamesLower e = (chainNamesRaw e).map strToLower := by
  match e with
  | .attribute v a la =>
    simp [chainNamesLower, chainNamesRaw, chainNamesLower_eq v]
  | .name id la => simp [chainNamesLower, chainNamesRaw]
  | .call f args => simp [chainNamesLower, chainNamesRaw]
  | .constant => simp [chainNamesLower, chainNamesRaw]

theorem scopes_nonempty_of_topScope {st : AState} {top : String}
    (h : topScope st = some top) : st.scopes.isEmpty = false := by
  unfold topScope at h
  cases hs : st.scopes with
  | nil => rw [hs] at h; simp at h
  | cons a l => simp

theorem dropLast_append_one {α : Type} (l : List α) (a : α) :
    (l ++ [a]).dropLast = l := by
  induction l with
  | nil => rfl
  | cons x rest ih =>
    cases rest with
    | nil => rfl
    | cons y t => simp [List.dropLast, ih]

/-! ## Claims -/

/-- Claim C1 (counterexample): in the two-file universe of the claim —
`A.py` defining `class Foo` with method `bar`, `B.py` importing `Foo`
and calling `Foo().bar()` inside `run`, both files in focus — `run`'s
`used_functions` entry for `Foo` is the plain display string
`"from A"`, not the claimed grouped record: the attribute base
`Foo()` is a Call node, so `visit_Attribute` records no base→method
usage and only the bare Name `Foo` is recorded. -/
theorem c1_counterexample :
    runUsedFunctions outC1 = some (some [("Foo", UFEntry.simple "from A")])
    ∧ runUsedFunctions outC1 ≠ some (some [("Foo", UFEntry.grouped "from A" ["bar"])]) := by
  constructor
  · decide
  · decide

/-- Claim C1 (amended): with the usage written `Foo().bar()` the emitted
entry for `Foo` is the simple string `"from A"`; the grouped form
`{file: "from A", methods: ["bar"]}` is emitted when the usage's
attribute base is the bare name, i.e. `Foo.bar()`. -/
theorem c1_entry_form :
    runUsedFunctions outC1 = some (some [("Foo", UFEntry.simple "from A")])
    ∧ runUsedFunctions outC1Name = some (some [("Foo", UFEntry.grouped "from A" ["bar"])]) := by
  constructor
  · decide
  · decide

/-- Claim C2 (counterexample): in a one-file universe whose class
`Widget` has method `render`, the Symbol Index has the qualified key
`Widget.render` but no bare key `render` — methods are not indexed
under their bare names, contrary to the claim. -/
theorem c2_counterexample :
    pyGet widgetIndex "Widget.render"
      = some [{ file_path := ["r", "w.py"], display := "from w" }]
    ∧ pyGet widgetIndex "render" = none := by
  constructor
  · decide
  · decide

/-- Claim C2 (amended): the Symbol Index maps every per-file
definition-table key — class names, top-level (and nested) function
names, and methods under their qualified `Class.method` key only — to
the ordered list of occurrences (file and display module, in file order
then definition order), and has no entry for a name nobody defines;
bare method names are not additionally indexed. -/
theorem c2_symbol_index :
    (∀ (fmi : List (FsPath × ModuleInfo))
       (fd : List (FsPath × List (String × DefInfo))) (n : String),
      pyGet (symbol_to_file fmi fd) n
        = if symbolIndexSpec fmi fd n = [] then none
          else some (symbolIndexSpec fmi fd n))
    ∧ widgetIndex
      = [("Widget", [{ file_path := ["r", "w.py"], display := "from w" }]),
         ("Widget.render", [{ file_path := ["r", "w.py"], display := "from w" }])]
    ∧ pyGet widgetIndex "render" = none := by
  refine ⟨pyGet_symbol_to_file, ?_, ?_⟩
  · decide
  · decide

/-- Claim C6: canonicalization returns the origin symbol for a symbol
alias (in bare and base position alike), leaves a name with no alias
unchanged, leaves a module alias unchanged in bare position but maps it
to the origin module in attribute-base position; and end to end, after
`from mod import Thing as T`, the usage `T()` is recorded under the
canonical name `Thing` and resolves to display `"from mod"`. -/
theorem c6_canonicalization :
    (∀ (st : AState) (n s : String) (info : AliasInfo),
      pyGet st.aliases n = some info → info.kind = .symbol → info.symbol = some s →
      canonical_name st n = s ∧ canonical_attr_base st n = s)
    ∧ (∀ (st : AState) (n : String),
      pyGet st.aliases n = none →
      canonical_name st n = n ∧ canonical_attr_base st n = n)
    ∧ (∀ (st : AState) (n : String) (info : AliasInfo),
      pyGet st.aliases n = some info → info.kind = .module →
      canonical_name st n = n ∧ canonical_attr_base st n = info.module)
    ∧ (pyGet (analyzeModule astUse) "f").map (fun d => d.used_names) = some ["Thing"]
    ∧ (pyGet outC6.files "r/use.py").map (fun ns =>
        (pyGet ns "f").map (fun node => node.base.used_functions))
      = some (some [("Thing", UFEntry.simple "from mod")]) := by
  refine ⟨?_, ?_, ?_, by decide, by decide⟩
  · intro st n s info h1 h2 h3
    constructor
    · unfold canonical_name
      rw [h1]
      simp [h2, h3]
    · unfold canonical_attr_base
      rw [h1]
      simp [h2, h3]
  · intro st n h1
    constructor
    · unfold canonical_name
      rw [h1]
    · unfold canonical_attr_base
      rw [h1]
  · intro st n info h1 h2
    constructor
    · unfold canonical_name
      rw [h1]
      simp [h2]
    · unfold canonical_attr_base
      rw [h1]
      simp [h2]

/-- Claim C6 (witness): the three canonicalization clauses applied to
concrete one-entry alias tables. -/
theorem c6_witness :
    (canonical_name stSym "T" = "Thing" ∧ canonical_attr_base stSym "T" = "Thing")
    ∧ (canonical_name stEmptyAlias "x" = "x" ∧ canonical_attr_base stEmptyAlias "x" = "x")
    ∧ (canonical_name stMod "np" = "np" ∧ canonical_attr_base stMod "np" = "numpy") :=
  ⟨c6_canonicalization.1 stSym "T" "Thing"
      { kind := .symbol, symbol := some "Thing", module := "mod" } (by decide) rfl rfl,
   c6_canonicalization.2.1 stEmptyAlias "x" (by decide),
   c6_canonicalization.2.2.1 stMod "np"
      { kind := .module, symbol := none, module := "numpy" } (by decide) rfl⟩

/-- Claim C7: `is_api_endpoint` is true exactly when some decorator's
unwrapped chain (leading call layers peeled, then the attribute chain
down to the root identifier) contains a name that, lower-cased, lies in
the fixed keyword set; concretely `@app.route(...)` flags the callable
and `@staticmethod` does not. -/
theorem c7_api_endpoint :
    (∀ decorators : List PyExpr,
      is_api_endpoint decorators = true ↔
        ∃ d ∈ decorators, ∃ n ∈ chainNamesRaw (unwrapCalls d),
          strToLower n ∈ API_DECORATOR_KEYWORDS)
    ∧ (pyGet (analyzeModule apiAst) "handler").map (fun d => d.is_api_endpoint) = some true
    ∧ (pyGet (analyzeModule apiAst) "plain").map (fun d => d.is_api_endpoint) = some false := by
  refine ⟨?_, by decide, by decide⟩
  intro ds
  unfold is_api_endpoint
  simp only [List.any_eq_true, decide_eq_true_eq, decoratorNames, chainNamesLower_eq,
    List.mem_map]
  constructor
  · rintro ⟨d, hd, x, ⟨n, hn, rfl⟩, hx⟩
    exact ⟨d, hd, n, hn, hx⟩
  · rintro ⟨d, hd, n, hn, hx⟩
    exact ⟨d, hd, strToLower n, ⟨n, hn, rfl⟩, hx⟩

/-- Claim C10: a function definition whose innermost open scope is a
function (not a class) is recorded under its bare name — the same key
space as top-level functions — overwriting any earlier definition under
that key (for an empty body and decorator list the whole visit is
exactly that one table update); concretely, the nested `def inner(x)`
ends up as the file's top-level `inner` entry in the emitted output,
replacing the earlier `def inner()`. -/
theorem c10_nested_function :
    (∀ (st : AState) (name : String) (args : List String)
       (lineno endLineno : Nat) (top : String) (d0 : DefInfo),
      topScope st = some top → pyGet st.definitions top = some d0 → d0.type = .func →
      visitStmt st (.functionDef name args lineno endLineno [] [])
        = { st with definitions := pySet st.definitions name (newFuncInfo args lineno endLineno []) }
      ∧ pyGet (visitStmt st (.functionDef name args lineno endLineno [] [])).definitions name
        = some (newFuncInfo args lineno endLineno []))
    ∧ pyGet outC10.files "q/nest.py"
      = some [("inner", { base := innerFinal, methods := none }),
              ("outer", { base := outerFinal, methods := none })] := by
  refine ⟨?_, by decide⟩
  intro st name args lineno endLineno top d0 h1 h2 h3
  have hfn : functionFullName st name = name := by
    unfold functionFullName
    rw [h1]
    simp [h2, h3]
  have hvisit : visitStmt st (.functionDef name args lineno endLineno [] [])
      = { st with definitions := pySet st.definitions name (newFuncInfo args lineno endLineno []) } := by
    simp only [visitStmt, hfn, visitStmts, visitExprs]
    simp [dropLast_append_one]
  refine ⟨hvisit, ?_⟩
  rw [hvisit]
  simp [pyGet_pySet]

/-- Claim C10 (witness): the bare-name rule applied inside the function
scope `outer`. -/
theorem c10_witness :
    visitStmt stC10 (.functionDef "inner" ["x"] 3 4 [] [])
      = { stC10 with definitions := pySet stC10.definitions "inner" (newFuncInfo ["x"] 3 4 []) }
    ∧ pyGet (visitStmt stC10 (.functionDef "inner" ["x"] 3 4 [] [])).definitions "inner"
      = some (newFuncInfo ["x"] 3 4 []) :=
  c10_nested_function.1 stC10 "inner" ["x"] 3 4 "outer" (newFuncInfo [] 1 2 [])
    (by decide) (by decide) (by decide)

/-- Claim C3 (counterexample): in `gadgetAst` the class `Gadget` has a
method body containing `self.helper = Tool()` and an access
`self.helper.ping` inside its methods, yet no definition of the file
records `ping` under `Tool`: the accessing method `use` is visited
before `setup` performs the binding, so the lookup misses and only the
inner `self.helper` access (`helper` under the literal `self`) is
recorded. -/
theorem c3_counterexample :
    (pyGet (analyzeModule gadgetAst) "Gadget.use").map (fun d => d.used_classes_methods)
      = some [("self", ["helper"])]
    ∧ (pyGet (analyzeModule gadgetAst) "Gadget.setup").map (fun d => d.used_classes_methods)
      = some [("self", ["helper"])]
    ∧ (pyGet (analyzeModule gadgetAst) "Gadget").map (fun d => d.used_classes_methods)
      = some [] := by
  refine ⟨by decide, by decide, by decide⟩

/-- Claim C3 (amended): whenever the access `self.X.attr` is visited
while the instance-attribute binding `(current class, X) ↦ ClassName`
is already tracked (i.e. the assignment `self.X = ClassName()` was
visited earlier and not overwritten), the visit records `attr` under the
bound class name in the innermost definition — and under neither `self`
nor `X` nor `attr` beyond what the state already held, the only other
additions being `X` under the literal `self` (from the inner `self.X`
node) and `self` to the used names. -/
theorem c3_amended_visit (st : AState) (top cls X className attr : String) (d : DefInfo)
    (hTop : topScope st = some top)
    (hDef : pyGet st.definitions top = some d)
    (hCls : get_current_class st = some cls)
    (hBind : pyGet st.instance_attr_types (cls, X) = some className)
    (hSelf : pyGet st.aliases "self" = none) :
    pyGet (visitExpr st (.attribute (.attribute (.name "self" true) X true) attr true)).definitions top
      = some (c3Updated d className attr X)
    ∧ attr ∈ ((pyGet (c3Updated d className attr X).used_classes_methods className).getD []) := by
  have hne : st.scopes.isEmpty = false := scopes_nonempty_of_topScope hTop
  have hTop2 : st.scopes.getLast? = some top := hTop
  have hne2 : ¬ (st.scopes = []) := by
    intro h
    rw [h] at hTop2
    simp at hTop2
  constructor
  · simp only [visitExpr, selfAttrBoundClass, addUcmTop, addUsedNameTop, topScope,
      canonical_attr_base, canonical_name, hne, hCls, hBind, hSelf, hTop2]
    simp [hTop2, hSelf, hne2]
    simp [pyGet_pyModify, hDef, c3Updated]
  · by_cases hcs : className = "self"
    · subst hcs
      simp [c3Updated, pyGet_ucmAdd, mem_setAdd]
    · simp [c3Updated, pyGet_ucmAdd, hcs, mem_setAdd]

/-- Claim C3 (witness): the amended rule applied in the concrete state
`stC3` (inside `Gadget.use` with `(Gadget, helper) ↦ Tool` tracked). -/
theorem c3_witness :
    pyGet (visitExpr stC3 (.attribute (.attribute (.name "self" true) "helper" true) "ping" true)).definitions "Gadget.use"
      = some (c3Updated (newFuncInfo ["self"] 2 3 []) "Tool" "ping" "helper")
    ∧ "ping" ∈ ((pyGet (c3Updated (newFuncInfo ["self"] 2 3 []) "Tool" "ping" "helper").used_classes_methods "Tool").getD []) :=
  c3_amended_visit stC3 "Gadget.use" "Gadget" "helper" "Tool" "ping"
    (newFuncInfo ["self"] 2 3 [])
    (by decide) (by decide) (by decide) (by decide) (by decide)

/-- Claim C4: symbol resolution prefers the supplied file's in-focus
entry; otherwise it returns the first in-focus occurrence; with no
in-focus occurrence it yields nothing and the usage is silently absent
from `used_functions`; and a symbol defined in exactly two files with
exactly one in focus resolves to the in-focus file in either
enumeration order. -/
theorem c4_resolution :
    (∀ (stf : List (String × List IndexEntry)) (focus : List FsPath)
       (name : String) (pf : FsPath),
      (∃ e ∈ (pyGet stf name).getD [], e.file_path = pf ∧ e.file_path ∈ focus) →
      ∃ e, resolve_symbol stf focus name (some pf) = some e
        ∧ e.file_path = pf ∧ e.file_path ∈ focus)
    ∧ (∀ (stf : List (String × List IndexEntry)) (focus : List FsPath)
       (name : String) (pf : FsPath),
      (∀ e ∈ (pyGet stf name).getD [], ¬ (e.file_path = pf ∧ e.file_path ∈ focus)) →
      resolve_symbol stf focus name (some pf) = resolve_symbol stf focus name none)
    ∧ (∀ (stf : List (String × List IndexEntry)) (focus : List FsPath)
       (name : String) (preferred : Option FsPath),
      (∀ e ∈ (pyGet stf name).getD [], e.file_path ∉ focus) →
      resolve_symbol stf focus name preferred = none)
    ∧ (∀ (stf : List (String × List IndexEntry)) (focus : List FsPath)
       (mtf : List (String × FsPath)) (d : DefInfo) (name : String),
      d.used_classes_methods = [] → name ∈ d.used_names →
      resolve_symbol stf focus name none = none →
      pyGet (build_used_functions stf focus mtf d) name = none)
    ∧ (∀ (name : String) (e1 e2 : IndexEntry) (focus : List FsPath),
      e1.file_path ∈ focus → e2.file_path ∉ focus →
      resolve_symbol [(name, [e1, e2])] focus name none = some e1
      ∧ resolve_symbol [(name, [e2, e1])] focus name none = some e1) := by
  refine ⟨?_, ?_, ?_, ?_, ?_⟩
  · intro stf focus name pf h
    rcases h with ⟨e0, he0, hfp, hfo⟩
    cases hf : ((pyGet stf name).getD []).find?
        (fun e => decide (e.file_path = pf) && decide (e.file_path ∈ focus)) with
    | none =>
      rw [List.find?_eq_none] at hf
      exact absurd (by simp [hfp, hfp ▸ hfo]) (hf e0 he0)
    | some e =>
      have hp := List.find?_some hf
      simp only [Bool.and_eq_true, decide_eq_true_eq] at hp
      refine ⟨e, ?_, hp.1, hp.2⟩
      simp [resolve_symbol, hf]
  · intro stf focus name pf h
    have hf : ((pyGet stf name).getD []).find?
        (fun e => decide (e.file_path = pf) && decide (e.file_path ∈ focus)) = none := by
      rw [List.find?_eq_none]
      intro e he
      simp only [Bool.and_eq_true, decide_eq_true_eq]
      exact fun hc => h e he hc
    simp [resolve_symbol, hf]
  · intro stf focus name preferred h
    have hf2 : ((pyGet stf name).getD []).find?
        (fun e => decide (e.file_path ∈ focus)) = none := by
      rw [List.find?_eq_none]
      intro e he
      simp only [decide_eq_true_eq]
      exact h e he
    cases preferred with
    | none => simp [resolve_symbol, hf2]
    | some pf =>
      have hf1 : ((pyGet stf name).getD []).find?
          (fun e => decide (e.file_path = pf) && decide (e.file_path ∈ focus)) = none := by
        rw [List.find?_eq_none]
        intro e he
        simp only [Bool.and_eq_true, decide_eq_true_eq]
        exact fun hc => h e he hc.2
      simp [resolve_symbol, hf1, hf2]
  · intro stf focus mtf d name hucm hmem hres
    unfold build_used_functions
    rw [hucm]
    simp only [List.foldl_nil]
    rw [pyGet_resolveFold (fun n => resolve_symbol stf focus n none)]
    simp [hres, pyGet]
  · intro name e1 e2 focus h1 h2
    constructor
    · unfold resolve_symbol
      simp [pyGet, List.find?, h1, h2]
    · unfold resolve_symbol
      simp [pyGet, List.find?, h1, h2]

/-- Claim C4 (witness): the five resolution clauses applied to a
two-entry index (`entryA` in focus, `entryB` not) and to an
unresolvable usage. -/
theorem c4_witness :
    (∃ e, resolve_symbol [("sym", [entryA, entryB])] focusW "sym" (some ["r", "a.py"]) = some e
       ∧ e.file_path = ["r", "a.py"] ∧ e.file_path ∈ focusW)
    ∧ resolve_symbol [("sym", [entryA, entryB])] focusW "sym" (some ["r", "b.py"])
        = resolve_symbol [("sym", [entryA, entryB])] focusW "sym" none
    ∧ resolve_symbol [("lone", [entryB])] focusW "lone" none = none
    ∧ pyGet (build_used_functions [("lone", [entryB])] focusW [] dC4miss) "missing" = none
    ∧ resolve_symbol [("sym", [entryA, entryB])] focusW "sym" none = some entryA
    ∧ resolve_symbol [("sym", [entryB, entryA])] focusW "sym" none = some entryA :=
  ⟨c4_resolution.1 [("sym", [entryA, entryB])] focusW "sym" ["r", "a.py"]
      ⟨entryA, by decide, by decide, by decide⟩,
   c4_resolution.2.1 [("sym", [entryA, entryB])] focusW "sym" ["r", "b.py"] (by decide),
   c4_resolution.2.2.1 [("lone", [entryB])] focusW "lone" none (by decide),
   c4_resolution.2.2.2.1 [("lone", [entryB])] focusW [] dC4miss "missing"
     (by decide) (by decide) (by decide),
   (c4_resolution.2.2.2.2 "sym" entryA entryB focusW (by decide) (by decide)).1,
   (c4_resolution.2.2.2.2 "sym" entryA entryB focusW (by decide) (by decide)).2⟩

/-- Claim C5: a package aggregator file (its computed module name ends
in `__init__` and is dotted) also registers its containing package's
dotted name in `module_to_file`; and when a base resolves to no
in-focus symbol but `module_to_file` maps it to an in-focus file, each
attribute name recorded on the base is re-resolved individually with
that file preferred, emitting one `simple` entry per attribute name and
no grouped entry under the base. -/
theorem c5_package_aggregator :
    (∀ (scanRoot fp : FsPath),
      strEndsWith (moduleOfFile scanRoot fp) "__init__" = true →
      (moduleOfFile scanRoot fp).data.contains '.' = true →
      rsplitDotHead (moduleOfFile scanRoot fp) ≠ "" →
      pyGet (module_to_file scanRoot [fp]) (rsplitDotHead (moduleOfFile scanRoot fp)) = some fp)
    ∧ (∀ (stf : List (String × List IndexEntry)) (focus : List FsPath)
       (mtf : List (String × FsPath)) (d : DefInfo) (base : String)
       (methods : List String) (aggFile : FsPath),
      d.used_names = [] → d.used_classes_methods = [(base, methods)] →
      resolve_symbol stf focus base none = none →
      pyGet mtf base = some aggFile → aggFile ∈ focus →
      (∀ m ∈ methods,
        pyGet (build_used_functions stf focus mtf d) m
          = (resolve_symbol stf focus m (some aggFile)).map (fun t => UFEntry.simple t.display))
      ∧ (base ∉ methods → pyGet (build_used_functions stf focus mtf d) base = none)) := by
  constructor
  · intro scanRoot fp hE hC hP
    have hC2 : '.' ∈ (moduleOfFile scanRoot fp).data := by simpa using hC
    simp [module_to_file, mtfStep, hE, hC2, hP, pyGet_pySet]
  · intro stf focus mtf d base methods aggFile h1 h2 h3 h4 h5
    have hfold : build_used_functions stf focus mtf d
        = (pySorted methods).foldl (fun uf method_name =>
            match resolve_symbol stf focus method_name (some aggFile) with
            | some t => pySet uf method_name (.simple t.display)
            | none => uf) [] := by
      unfold build_used_functions
      rw [h1, h2]
      simp only [List.foldl_nil, List.foldl_cons, h3]
      unfold aggFallback
      rw [h4]
      simp [h5]
    constructor
    · intro m hm
      rw [hfold,
        pyGet_resolveFold (fun n => resolve_symbol stf focus n (some aggFile))]
      have hms : m ∈ pySorted methods := (mem_pySorted methods m).mpr hm
      cases hr : resolve_symbol stf focus m (some aggFile) with
      | none => simp [hms, hr, pyGet]
      | some t => simp [hms, hr]
    · intro hb
      rw [hfold,
        pyGet_resolveFold (fun n => resolve_symbol stf focus n (some aggFile))]
      have hbs : base ∉ pySorted methods := fun hc => hb ((mem_pySorted methods base).mp hc)
      simp [hbs, pyGet]

/-- Claim C5 (witness): the aggregator registration for
`pkg/__init__.py` and the per-attribute fallback for the base `pkg`
with attribute `helper`. -/
theorem c5_witness :
    pyGet (module_to_file ["r"] [["r", "pkg", "__init__.py"]])
        (rsplitDotHead (moduleOfFile ["r"] ["r", "pkg", "__init__.py"]))
      = some ["r", "pkg", "__init__.py"]
    ∧ pyGet (build_used_functions stfC5 focusC5 mtfC5 dC5) "helper"
      = (resolve_symbol stfC5 focusC5 "helper" (some ["r", "pkg", "__init__.py"])).map
          (fun t => UFEntry.simple t.display)
    ∧ pyGet (build_used_functions stfC5 focusC5 mtfC5 dC5) "pkg" = none :=
  ⟨c5_package_aggregator.1 ["r"] ["r", "pkg", "__init__.py"]
      (by decide) (by decide) (by decide),
   (c5_package_aggregator.2 stfC5 focusC5 mtfC5 dC5 "pkg" ["helper"]
      ["r", "pkg", "__init__.py"] (by decide) (by decide) (by decide)
      (by decide) (by decide)).1 "helper" (by decide),
   (c5_package_aggregator.2 stfC5 focusC5 mtfC5 dC5 "pkg" ["helper"]
      ["r", "pkg", "__init__.py"] (by decide) (by decide) (by decide)
      (by decide) (by decide)).2 (by decide)⟩

/-- Claim C8: if the scan root does not exist, the focus root does not
exist, or the focus root is not the scan root or a descendant of it,
`main` fails with a configuration error: the result is never `ok`, no
output value is produced, and the outcome is the same as with no files
at all — the failure precedes any analysis. -/
theorem c8_config_errors :
    ∀ (existingDirs : List FsPath) (scanRoot focusRoot : FsPath),
      (scanRoot ∉ existingDirs ∨ focusRoot ∉ existingDirs
        ∨ is_within scanRoot focusRoot = false) →
      ∀ files, exceptIsOk (mainModel existingDirs scanRoot focusRoot files) = false
        ∧ exceptOutput (mainModel existingDirs scanRoot focusRoot files) = none
        ∧ mainModel existingDirs scanRoot focusRoot files
          = mainModel existingDirs scanRoot focusRoot [] := by
  intro dirs s f h files
  unfold mainModel
  by_cases h1 : s ∈ dirs
  · by_cases h2 : f ∈ dirs
    · have h3 : is_within s f = false := by
        rcases h with hh | hh | hh
        · exact absurd h1 hh
        · exact absurd h2 hh
        · exact hh
      simp [h1, h2, h3, exceptIsOk, exceptOutput]
    · simp [h1, h2, exceptIsOk, exceptOutput]
  · simp [h1, exceptIsOk, exceptOutput]

/-- Claim C8 (witness): a focus root that is no descendant of anything
listed as a directory aborts the run identically for any file list. -/
theorem c8_witness :
    exceptIsOk (mainModel [["r"]] ["r"] ["q"] [(["r", "x.py"], none)]) = false
    ∧ exceptOutput (mainModel [["r"]] ["r"] ["q"] [(["r", "x.py"], none)]) = none
    ∧ mainModel [["r"]] ["r"] ["q"] [(["r", "x.py"], none)]
      = mainModel [["r"]] ["r"] ["q"] [] :=
  c8_config_errors [["r"]] ["r"] ["q"] (Or.inr (Or.inl (by decide)))
    [(["r", "x.py"], none)]

theorem pyGet_fmiFold_agree (scanRoot : FsPath) (fp : FsPath) (l : List FsPath) :
    ∀ (acc acc2 : List (FsPath × ModuleInfo)),
      (∀ q, ¬ q = fp → pyGet acc q = pyGet acc2 q) →
      ∀ q, ¬ q = fp →
        pyGet (l.foldl (fmiStep scanRoot) acc) q
          = pyGet (l.foldl (fmiStep scanRoot) acc2) q := by
  induction l with
  | nil => intro acc acc2 h q hq; exact h q hq
  | cons x rest ih =>
    intro acc acc2 h q hq
    simp only [List.foldl_cons]
    apply ih
    · intro r hr
      unfold fmiStep
      rw [pyGet_pySet, pyGet_pySet]
      by_cases hrx : r = x
      · simp [hrx]
      · simp [hrx, h r hr]
    · exact hq

theorem pyGet_buildFmi_skip (scanRoot : FsPath) (pfs1 pfs2 : List FsPath)
    (fp q : FsPath) (hq : ¬ q = fp) :
    pyGet (buildFmi scanRoot (pfs1 ++ fp :: pfs2)) q
      = pyGet (buildFmi scanRoot (pfs1 ++ pfs2)) q := by
  unfold buildFmi
  rw [List.foldl_append, List.foldl_append, List.foldl_cons]
  apply pyGet_fmiFold_agree scanRoot fp pfs2 _ _ _ q hq
  intro r hr
  unfold fmiStep
  rw [pyGet_pySet]
  simp [hr]

theorem buildFilesData_skip (l1 l2 : List (FsPath × Option (List PyStmt)))
    (fp : FsPath) :
    buildFilesData (l1 ++ (fp, none) :: l2) = buildFilesData (l1 ++ l2) := by
  unfold buildFilesData
  rw [List.foldl_append, List.foldl_append, List.foldl_cons]
  rfl

theorem symbol_to_file_congr (fmi fmi2 : List (FsPath × ModuleInfo))
    (fd : List (FsPath × List (String × DefInfo)))
    (h : ∀ p ∈ fd, displayOfFmi fmi p.1 = displayOfFmi fmi2 p.1) :
    symbol_to_file fmi fd = symbol_to_file fmi2 fd := by
  unfold symbol_to_file
  apply foldl_ext_mem
  intro b p hp
  unfold stfFileStep
  rw [h p hp]

theorem aggFallback_eq (stf : List (String × List IndexEntry)) (focus : List FsPath)
    (mtf : List (String × FsPath)) (uf : List (String × UFEntry))
    (base : String) (methods : List String) :
    aggFallback stf focus mtf uf base methods
      = match mtfFocusGet mtf focus base with
        | some module_file =>
          (pySorted methods).foldl (fun uf method_name =>
            match resolve_symbol stf focus method_name (some module_file) with
            | some t => pySet uf method_name (.simple t.display)
            | none => uf) uf
        | none => uf := by
  unfold aggFallback mtfFocusGet
  cases pyGet mtf base with
  | none => rfl
  | some f =>
    by_cases hf : f ∈ focus
    · simp [hf]
    · simp [hf]

theorem build_used_functions_mtf_congr (stf : List (String × List IndexEntry))
    (focus : List FsPath) (mtf mtf2 : List (String × FsPath)) (d : DefInfo)
    (h : ∀ b, mtfFocusGet mtf focus b = mtfFocusGet mtf2 focus b) :
    build_used_functions stf focus mtf d = build_used_functions stf focus mtf2 d := by
  unfold build_used_functions
  apply foldl_ext_mem
  intro b p _
  cases hr : resolve_symbol stf focus p.1 none with
  | none => simp only [aggFallback_eq, h p.1]
  | some t => simp only [aggFallback_eq, h p.1]

theorem finalizeNode_mtf_congr (stf : List (String × List IndexEntry))
    (focus : List FsPath) (mtf mtf2 : List (String × FsPath)) (n : NodeData)
    (h : ∀ b, mtfFocusGet mtf focus b = mtfFocusGet mtf2 focus b) :
    finalizeNode stf focus mtf n = finalizeNode stf focus mtf2 n := by
  have hb : ∀ dd, build_used_functions stf focus mtf dd
      = build_used_functions stf focus mtf2 dd :=
    fun dd => build_used_functions_mtf_congr stf focus mtf mtf2 dd h
  simp only [finalizeNode, finalizeDef, hb]

theorem buildFinalData_mtf_congr (stf : List (String × List IndexEntry))
    (focus : List FsPath) (mtf mtf2 : List (String × FsPath))
    (fd : List (FsPath × List (String × DefInfo)))
    (h : ∀ b, mtfFocusGet mtf focus b = mtfFocusGet mtf2 focus b) :
    buildFinalData stf focus mtf fd = buildFinalData stf focus mtf2 fd := by
  have hn : ∀ n, finalizeNode stf focus mtf n = finalizeNode stf focus mtf2 n :=
    fun n => finalizeNode_mtf_congr stf focus mtf mtf2 n h
  simp only [buildFinalData, hn]

theorem mem_buildFinalData (stf : List (String × List IndexEntry))
    (focus : List FsPath) (mtf : List (String × FsPath))
    (fd : List (FsPath × List (String × DefInfo)))
    (p : FsPath × List (String × OutNode))
    (h : p ∈ buildFinalData stf focus mtf fd) : ∃ q ∈ fd, p.1 = q.1 := by
  unfold buildFinalData at h
  rcases List.mem_map.mp h with ⟨q, hq, he⟩
  exact ⟨q, hq, by rw [← he]⟩

theorem buildOutMeta_fmi_congr (parentDir : FsPath)
    (fmi fmi2 : List (FsPath × ModuleInfo)) (focus : List FsPath)
    (finalData : List (FsPath × List (String × OutNode)))
    (h : ∀ p ∈ finalData, pyGet fmi p.1 = pyGet fmi2 p.1) :
    buildOutMeta parentDir fmi focus finalData
      = buildOutMeta parentDir fmi2 focus finalData := by
  unfold buildOutMeta
  apply foldl_ext_mem
  intro b p hp
  rw [h p hp]

theorem mem_of_pyGet {K V : Type} [DecidableEq K] (d : List (K × V)) (k : K)
    (v : V) (h : pyGet d k = some v) : (k, v) ∈ d := by
  induction d with
  | nil => simp [pyGet] at h
  | cons p rest ih =>
    unfold pyGet at h
    by_cases hp : p.1 = k
    · rw [if_pos hp] at h
      cases h
      have : p = (k, p.2) := by
        cases p
        simp at hp
        simp [hp]
      rw [← this]
      exact List.mem_cons_self p rest
    · rw [if_neg hp] at h
      exact List.mem_cons_of_mem _ (ih h)

/-- Claim C9 (counterexample): `pkg/__init__.py` fails to parse, yet its
package alias `pkg` still shadows the `module_to_file` registration of
`pkg.py`; with it present, `user.py`'s `use` resolves nothing, while
the run without the failed file emits `helper ↦ "from pkg"` — so
another file's emitted results differ between the two runs. -/
theorem c9_counterexample :
    useUsedFunctions filesC9A = some (some [])
    ∧ useUsedFunctions filesC9B = some (some [("helper", UFEntry.simple "from pkg")])
    ∧ useUsedFunctions filesC9A ≠ useUsedFunctions filesC9B := by
  refine ⟨by decide, by decide, by decide⟩

/-- Claim C9 (amended): a file that fails to parse contributes no
definitions (it is no `files_data` key and no Symbol Index occurrence
names it, hence it is absent from the emitted files and file_meta, which
only ever carry `files_data` keys); and the run's entire output equals
that of a run without the failed file provided the failed file's module
registrations do not shadow any `module_to_file` lookup that the
aggregator fallback could observe (which the counterexample shows can
otherwise happen). -/
theorem c9_amended_isolation (scanRoot focusRoot fp : FsPath)
    (l1 l2 : List (FsPath × Option (List PyStmt)))
    (hfp : fp ∉ (l1 ++ l2).map Prod.fst)
    (hm : ∀ b, mtfFocusGet (module_to_file scanRoot ((l1 ++ (fp, none) :: l2).map Prod.fst))
            (focusOf focusRoot (l1 ++ l2)) b
          = mtfFocusGet (module_to_file scanRoot ((l1 ++ l2).map Prod.fst))
            (focusOf focusRoot (l1 ++ l2)) b) :
    runPipeline scanRoot focusRoot (l1 ++ (fp, none) :: l2)
      = runPipeline scanRoot focusRoot (l1 ++ l2)
    ∧ pyGet (buildFilesData (l1 ++ (fp, none) :: l2)) fp = none
    ∧ (∀ (n : String) (entries : List IndexEntry),
        pyGet (symbol_to_file (buildFmi scanRoot ((l1 ++ (fp, none) :: l2).map Prod.fst))
                (buildFilesData (l1 ++ (fp, none) :: l2))) n = some entries →
        ∀ e ∈ entries, ¬ e.file_path = fp) := by
  have hfd := buildFilesData_skip l1 l2 fp
  have hfocus : focusOf focusRoot (l1 ++ (fp, none) :: l2) = focusOf focusRoot (l1 ++ l2) := by
    unfold focusOf
    rw [hfd]
  have hkeys : ∀ p ∈ buildFilesData (l1 ++ l2), ¬ p.1 = fp := by
    intro p hp hc
    exact hfp (hc ▸ mem_buildFilesData _ p hp)
  have hpf : (l1 ++ (fp, none) :: l2).map Prod.fst
      = (l1.map Prod.fst) ++ fp :: (l2.map Prod.fst) := by simp
  have hpfB : (l1 ++ l2).map Prod.fst = (l1.map Prod.fst) ++ (l2.map Prod.fst) := by simp
  have hfmi : ∀ q, ¬ q = fp →
      pyGet (buildFmi scanRoot ((l1 ++ (fp, none) :: l2).map Prod.fst)) q
        = pyGet (buildFmi scanRoot ((l1 ++ l2).map Prod.fst)) q := by
    intro q hq
    rw [hpf, hpfB]
    exact pyGet_buildFmi_skip scanRoot _ _ fp q hq
  have hstf : symbol_to_file (buildFmi scanRoot ((l1 ++ (fp, none) :: l2).map Prod.fst))
        (buildFilesData (l1 ++ l2))
      = symbol_to_file (buildFmi scanRoot ((l1 ++ l2).map Prod.fst))
        (buildFilesData (l1 ++ l2)) := by
    apply symbol_to_file_congr
    intro p hp
    unfold displayOfFmi
    rw [hfmi p.1 (hkeys p hp)]
  refine ⟨?_, ?_, ?_⟩
  · simp only [runPipeline]
    rw [hfd, hfocus, hstf]
    rw [buildFinalData_mtf_congr _ _ _ _ _ hm]
    congr 1
    apply buildOutMeta_fmi_congr
    intro p hp
    rcases mem_buildFinalData _ _ _ _ p hp with ⟨q, hq, he⟩
    rw [he]
    exact hfmi q.1 (hkeys q hq)
  · rw [hfd]
    cases hg : pyGet (buildFilesData (l1 ++ l2)) fp with
    | none => rfl
    | some defs =>
      exact absurd rfl (hkeys (fp, defs) (mem_of_pyGet _ fp defs hg))
  · intro n entries hent e he
    rw [hfd, pyGet_symbol_to_file] at hent
    by_cases hs : symbolIndexSpec (buildFmi scanRoot ((l1 ++ (fp, none) :: l2).map Prod.fst))
        (buildFilesData (l1 ++ l2)) n = []
    · rw [if_pos hs] at hent
      cases hent
    · rw [if_neg hs] at hent
      cases hent
      rcases file_of_mem_symbolIndexSpec _ _ _ e he with ⟨p, hp, hef⟩
      intro hc
      exact hkeys p hp (hef ▸ hc)

/-- Claim C9 (witness): the amended isolation applied to a universe
where the unparseable `lone.py` shadows nothing: both runs produce
identical output and the failed file is absent everywhere. -/
theorem c9_witness :
    runPipeline ["r"] ["r"] (c9wL1 ++ (c9wFailed, none) :: [])
      = runPipeline ["r"] ["r"] (c9wL1 ++ [])
    ∧ pyGet (buildFilesData (c9wL1 ++ (c9wFailed, none) :: [])) c9wFailed = none
    ∧ (∀ (n : String) (entries : List IndexEntry),
        pyGet (symbol_to_file (buildFmi ["r"] ((c9wL1 ++ (c9wFailed, none) :: []).map Prod.fst))
                (buildFilesData (c9wL1 ++ (c9wFailed, none) :: []))) n = some entries →
        ∀ e ∈ entries, ¬ e.file_path = c9wFailed) :=
  c9_amended_isolation ["r"] ["r"] c9wFailed c9wL1 [] (by decide)
    (by
      intro b
      have hA : module_to_file ["r"] ((c9wL1 ++ (c9wFailed, none) :: []).map Prod.fst)
          = [("a", ["r", "a.py"]), ("lone", ["r", "lone.py"])] := by decide
      have hB : module_to_file ["r"] ((c9wL1 ++ ([] : List (FsPath × Option (List PyStmt)))).map Prod.fst)
          = [("a", ["r", "a.py"])] := by decide
      have hFoc : focusOf ["r"] (c9wL1 ++ []) = [["r", "a.py"]] := by decide
      rw [hA, hB, hFoc]
      by_cases h1 : ("a" : String) = b
      · subst h1
        decide
      · by_cases h2 : ("lone" : String) = b
        · subst h2
          decide
        · simp [mtfFocusGet, pyGet, h1, h2])
